import Mathlib

/-
  Verification of the @synet/http request-execution core.

  Shallow embedding of the repository's source:
    - `src/result.ts`          : the `Result<T>` success/failure container
    - `src/http.unit.ts`       : the `Http` unit (`request`, `executeWithRetries`,
                                 `buildRequestConfig`, `resolveUrl`, `buildHttpResponse`,
                                 `tryParseJson`, and the catch-block error classification)
    - `src/functions.ts`       : the pure functions (`request`, `buildUrl`, `retryRequest`,
                                 `parseJson`, status helpers)

  JavaScript-platform primitives that the code calls (the axios transport, `fetch`,
  `JSON.parse`, `JSON.stringify`, `URLSearchParams`, the clock) are modelled as
  explicit oracle parameters: each is passed in as a function or as the concrete
  outcome it produced, so every definition below stays executable and the control
  flow around those calls is the code's own.
-/

set_option autoImplicit false

namespace SynetHttp

universe u v

/-- Model of the `Result<T>` class (`src/result.ts`): private fields `_value`,
`_error`, `_errorCause`.  The error cause (an arbitrary thrown value in TS) is
kept abstractly as an optional message string. -/
structure Result (T : Type u) : Type u where
  _value : Option T
  _error : Option String
  _errorCause : Option String

/-- `Result.success(value)` : `new Result(value, null)`. -/
def Result.success {T : Type u} (value : T) : Result T :=
  ⟨some value, none, none⟩

/-- `Result.fail(error, cause?)` : `new Result(null, error, cause)`. -/
def Result.fail {T : Type u} (error : String) (cause : Option String) : Result T :=
  ⟨none, some error, cause⟩

/-- `get isSuccess()` : `this._error === null`. -/
def Result.isSuccess {T : Type u} (r : Result T) : Bool :=
  r._error.isNone

/-- `get isFailure()` : `this._error !== null`. -/
def Result.isFailure {T : Type u} (r : Result T) : Bool :=
  r._error.isSome

/-- `get value()` : throws when the result is a failure, otherwise returns the
stored `_value` (the TS code returns `this._value as T`, so the raw optional
field is what comes back). A thrown exception is modelled as `Except.error`. -/
def Result.value {T : Type u} (r : Result T) : Except String (Option T) :=
  match r._error with
  | some e => Except.error ("Cannot access value of failed result: " ++ e)
  | none => Except.ok r._value

/-- `get error()` : throws when the result is a success, otherwise returns the
stored error message. -/
def Result.error {T : Type u} (r : Result T) : Except String String :=
  match r._error with
  | none => Except.error "Cannot access error of successful result"
  | some e => Except.ok e

/-- `map(fn)`: the callback may throw, which the TS code catches and converts
into a failure; a throwing callback is modelled as one returning
`Except.error`.  On a failure input the message is propagated through
`this._error || 'Unknown error'` (JS `||` replaces an empty string). -/
def Result.map {T : Type u} {U : Type v} (r : Result T) (fn : T → Except String U) :
    Result U :=
  match r._error with
  | some e => Result.fail (if e = "" then "Unknown error" else e) r._errorCause
  | none =>
    match r._value with
    | some v =>
      match fn v with
      | Except.ok u => Result.success u
      | Except.error m => Result.fail ("Mapping failed: " ++ m) (some m)
    | none =>
      -- unreachable for results built by `success`/`fail`: `_error = null`
      -- forces a stored value there
      Result.mk none none none

/-- `flatMap(fn)`: like `map` but the callback returns another `Result`;
exceptions inside the callback are caught the same way. -/
def Result.flatMap {T : Type u} {U : Type v} (r : Result T)
    (fn : T → Except String (Result U)) : Result U :=
  match r._error with
  | some e => Result.fail (if e = "" then "Unknown error" else e) r._errorCause
  | none =>
    match r._value with
    | some v =>
      match fn v with
      | Except.ok ru => ru
      | Except.error m => Result.fail ("FlatMap failed: " ++ m) (some m)
    | none =>
      Result.mk none none none

/-- The result stores a value. -/
def Result.hasValue {T : Type u} (r : Result T) : Bool :=
  r._value.isSome

/-- The result stores an error message. -/
def Result.hasError {T : Type u} (r : Result T) : Bool :=
  r._error.isSome

/-- Mutual-exclusivity invariant of the `Result` class: exactly one of
"has value" / "has error" holds. -/
def Result.WF {T : Type u} (r : Result T) : Prop :=
  (r.hasValue = true ∧ r.hasError = false) ∨ (r.hasValue = false ∧ r.hasError = true)

/-- Claim C9: both construction paths of `Result` (and `map`/`flatMap`, which
build every other reachable `Result`) produce values satisfying the
mutual-exclusivity invariant; on every such value `isSuccess` and `isFailure`
are mutually exclusive and exhaustive, and accessing the value of a failure or
the error of a success throws rather than returning. -/
theorem claim_C9_result_invariants :
    (∀ (T : Type) (v : T), (Result.success v).WF) ∧
    (∀ (T : Type) (e : String) (c : Option String), (Result.fail e c : Result T).WF) ∧
    (∀ (T U : Type) (r : Result T) (fn : T → Except String U), r.WF → (r.map fn).WF) ∧
    (∀ (T U : Type) (r : Result T) (fn : T → Except String (Result U)), r.WF →
      (∀ v ru, fn v = Except.ok ru → ru.WF) → (r.flatMap fn).WF) ∧
    (∀ (T : Type) (r : Result T), r.WF →
      ((r.isSuccess = true ↔ r.isFailure = false) ∧
       (r.hasValue = true ↔ r.hasError = false) ∧
       (r.isFailure = true → ∃ m, r.value = Except.error m) ∧
       (r.isSuccess = true → ∃ m, r.error = Except.error m))) := by
  refine ⟨?_, ?_, ?_, ?_, ?_⟩
  · intro T v
    simp [Result.success, Result.WF, Result.hasValue, Result.hasError]
  · intro T e c
    simp [Result.fail, Result.WF, Result.hasValue, Result.hasError]
  · intro T U r fn hr
    rcases r with ⟨val, err, cause⟩
    rcases hr with ⟨h1, h2⟩ | ⟨h1, h2⟩
    · have herr : err = none := by cases err <;> simp_all [Result.hasError]
      rcases val with _ | v
      · simp [Result.hasValue] at h1
      · subst herr
        cases hfn : fn v <;>
          simp [Result.map, Result.WF, hfn, Result.success, Result.fail,
            Result.hasValue, Result.hasError]
    · rcases err with _ | e
      · simp [Result.hasError] at h2
      · simp [Result.map, Result.WF, Result.fail, Result.hasValue, Result.hasError]
  · intro T U r fn hr hfn
    rcases r with ⟨val, err, cause⟩
    rcases hr with ⟨h1, h2⟩ | ⟨h1, h2⟩
    · have herr : err = none := by cases err <;> simp_all [Result.hasError]
      rcases val with _ | v
      · simp [Result.hasValue] at h1
      · subst herr
        cases hres : fn v with
        | ok ru =>
          have hwf := hfn v ru hres
          simpa [Result.flatMap, Result.WF, hres, Result.hasValue, Result.hasError]
            using hwf
        | error m =>
          simp [Result.flatMap, Result.WF, hres, Result.fail, Result.hasValue,
            Result.hasError]
    · rcases err with _ | e
      · simp [Result.hasError] at h2
      · simp [Result.flatMap, Result.WF, Result.fail, Result.hasValue,
          Result.hasError]
  · intro T r hr
    rcases r with ⟨val, err, cause⟩
    rcases hr with ⟨h1, h2⟩ | ⟨h1, h2⟩ <;>
      rcases val with _ | v <;> rcases err with _ | e <;>
        simp_all [Result.hasValue, Result.hasError, Result.isSuccess,
          Result.isFailure, Result.value, Result.error]

/-- Witness for C9 at concrete results: `success 3` satisfies the invariant and
accessing `value` on a concrete failure throws. -/
theorem claim_C9_witness :
    (Result.success (3 : Nat)).WF ∧
    ∃ m, (Result.fail "boom" none : Result Nat).value = Except.error m := by
  refine ⟨claim_C9_result_invariants.1 Nat 3, ?_⟩
  refine (claim_C9_result_invariants.2.2.2.2 Nat (Result.fail "boom" none) ?_).2.2.1 ?_
  · exact claim_C9_result_invariants.2.1 Nat "boom" none
  · rfl

/-- Header maps are JS objects with string keys: ordered association lists with
case-sensitive keys (the data model keeps keys exactly as provided). -/
abbrev Headers := List (String × String)

/-- JS property lookup `obj[k]` on a header object (first matching key; objects
built by the code below keep keys unique, as JS objects do). -/
def hGet (k : String) (l : Headers) : Option String :=
  (l.find? (fun p => p.1 == k)).map Prod.snd

/-- JS property assignment `obj[k] = v`: overwrite the entry in place when the
key exists, otherwise append a new entry. -/
def hSet (l : Headers) (k v : String) : Headers :=
  if l.any (fun p => p.1 == k) then
    l.map (fun p => if p.1 == k then (k, v) else p)
  else
    l ++ [(k, v)]

/-- JS object spread of two header objects (later properties win per key):
assign each update entry onto the base object in order. -/
def mergeHeaders (base upd : Headers) : Headers :=
  upd.foldl (fun acc p => hSet acc p.1 p.2) base

theorem hGet_nil (q : String) : hGet q [] = none := rfl

theorem hGet_cons (q : String) (p : String × String) (t : Headers) :
    hGet q (p :: t) = if p.1 = q then some p.2 else hGet q t := by
  by_cases h : p.1 = q
  · have hb : (p.1 == q) = true := by simpa using h
    simp [hGet, List.find?, hb, h]
  · have hb : (p.1 == q) = false := by simpa using h
    simp [hGet, List.find?, hb, h]

theorem hGet_append (q : String) (l m : Headers) :
    hGet q (l ++ m) = (hGet q l).orElse (fun _ => hGet q m) := by
  induction l with
  | nil => cases h : hGet q m <;> simp [hGet_nil, Option.orElse, h]
  | cons p t ih =>
    rw [List.cons_append, hGet_cons, hGet_cons]
    by_cases h : p.1 = q <;> simp [h, ih, Option.orElse]

theorem hGet_none_of_no_key (q : String) (l : Headers)
    (h : l.any (fun p => p.1 == q) = false) : hGet q l = none := by
  induction l with
  | nil => rfl
  | cons p t ih =>
    simp only [List.any_cons, Bool.or_eq_false_iff] at h
    have hne : p.1 ≠ q := by simpa using h.1
    rw [hGet_cons, if_neg hne]
    exact ih h.2

theorem hGet_map_set_self (l : Headers) (k v : String) :
    hGet k (l.map (fun p => if p.1 == k then (k, v) else p)) =
      (if l.any (fun p => p.1 == k) then some v else none) := by
  induction l with
  | nil => simp [hGet_nil]
  | cons p t ih =>
    by_cases hpk : p.1 = k
    · have hb : (p.1 == k) = true := by simpa using hpk
      simp only [List.map_cons, List.any_cons, hb, if_true, Bool.true_or]
      rw [hGet_cons]
      simp
    · have hb : (p.1 == k) = false := by simpa using hpk
      simp only [List.map_cons, List.any_cons, hb, Bool.false_or,
        Bool.false_eq_true, if_false]
      rw [hGet_cons, if_neg hpk]
      exact ih

theorem hGet_map_set_other (l : Headers) (k v q : String) (hqk : q ≠ k) :
    hGet q (l.map (fun p => if p.1 == k then (k, v) else p)) = hGet q l := by
  induction l with
  | nil => simp
  | cons p t ih =>
    by_cases hpk : p.1 = k
    · have hb : (p.1 == k) = true := by simpa using hpk
      have hkq : k ≠ q := fun hh => hqk hh.symm
      have hpq : p.1 ≠ q := by rw [hpk]; exact hkq
      simp only [List.map_cons, hb, if_true]
      rw [hGet_cons, hGet_cons, if_neg hpq]
      show (if k = q then some v else _) = _
      rw [if_neg hkq]
      exact ih
    · have hb : (p.1 == k) = false := by simpa using hpk
      simp only [List.map_cons, hb, Bool.false_eq_true, if_false]
      rw [hGet_cons, hGet_cons]
      by_cases hpq : p.1 = q
      · rw [if_pos hpq, if_pos hpq]
      · rw [if_neg hpq, if_neg hpq]
        exact ih

theorem hGet_hSet (l : Headers) (k v q : String) :
    hGet q (hSet l k v) = if q = k then some v else hGet q l := by
  unfold hSet
  by_cases hmem : l.any (fun p => p.1 == k) = true
  · rw [if_pos hmem]
    by_cases hqk : q = k
    · subst hqk
      rw [hGet_map_set_self, hmem, if_pos rfl, if_pos rfl]
    · rw [hGet_map_set_other l k v q hqk, if_neg hqk]
  · have hmem' : l.any (fun p => p.1 == k) = false := by
      cases h : l.any (fun p => p.1 == k)
      · rfl
      · exact absurd h hmem
    rw [if_neg hmem, hGet_append]
    by_cases hqk : q = k
    · subst hqk
      rw [hGet_none_of_no_key q l hmem', if_pos rfl]
      rw [hGet_cons, if_pos rfl]
      rfl
    · have hkq : k ≠ q := fun hh => hqk hh.symm
      rw [if_neg hqk]
      have h1 : hGet q ([(k, v)] : Headers) = none := by
        rw [hGet_cons, if_neg hkq, hGet_nil]
      rw [h1]
      cases hl : hGet q l <;> rfl

theorem hGet_none_of_not_mem_keys (q : String) (l : Headers)
    (h : q ∉ l.map Prod.fst) : hGet q l = none := by
  apply hGet_none_of_no_key
  rw [List.any_eq_false]
  intro p hp hmatch
  have hpq : p.1 = q := by simpa using hmatch
  exact h (hpq ▸ List.mem_map_of_mem Prod.fst hp)

theorem hGet_mergeHeaders (base upd : Headers)
    (hnd : (upd.map Prod.fst).Nodup) (q : String) :
    hGet q (mergeHeaders base upd) =
      (hGet q upd).orElse (fun _ => hGet q base) := by
  induction upd generalizing base with
  | nil =>
    show hGet q base = (hGet q []).orElse (fun _ => hGet q base)
    rw [hGet_nil]
    cases h : hGet q base <;> simp [Option.orElse, h]
  | cons p t ih =>
    simp only [List.map_cons, List.nodup_cons] at hnd
    have ht := ih (hSet base p.1 p.2) hnd.2
    show hGet q (mergeHeaders (hSet base p.1 p.2) t) = _
    rw [ht]
    simp only [hGet_hSet]
    rw [hGet_cons]
    by_cases hqp : q = p.1
    · subst hqp
      rw [hGet_none_of_not_mem_keys p.1 t hnd.1]
      simp [Option.orElse]
    · have hpq : p.1 ≠ q := fun hh => hqp hh.symm
      simp [hqp, hpq]

/-- A request body: either a raw string or a structured value (serialized via
`JSON.stringify`, modelled by a `stringify` oracle parameter). -/
inductive HttpBody (β : Type u) : Type u where
  | str : String → HttpBody β
  | structured : β → HttpBody β

/-- The `HttpRequest` descriptor fields consumed by the executor
(`src/http.unit.ts`): an absent `headers` object spreads like the empty object,
so it is modelled by `[]`. -/
structure HttpRequestModel (β : Type u) : Type u where
  url : String
  method : String
  headers : Headers
  body : Option (HttpBody β)

/-- The request configuration assembled by `buildRequestConfig` (the `signal`
and `proxy` passthrough fields carry no behavior modelled here). -/
structure BuiltConfig : Type where
  method : String
  headers : Headers
  body : Option String

/-- `buildRequestConfig` (`src/http.unit.ts`): merge the unit's default headers
with the descriptor headers (descriptor wins per key), pass a string body
through unchanged, and serialize a structured body with `JSON.stringify` while
forcing the `Content-Type` header to `application/json`. -/
def buildRequestConfig {β : Type u} (defaultHeaders : Headers)
    (config : HttpRequestModel β) (stringify : β → String) : BuiltConfig :=
  let headers := mergeHeaders defaultHeaders config.headers
  match config.body with
  | none => ⟨config.method, headers, none⟩
  | some (HttpBody.str s) => ⟨config.method, headers, some s⟩
  | some (HttpBody.structured b) =>
      ⟨config.method, hSet headers "Content-Type" "application/json",
        some (stringify b)⟩

/-- Claim C5: for a structured (non-string) body the executor serializes it to
JSON text and forces the `Content-Type` header to `application/json`,
overriding anything the caller put under that header key; for a string body the
body is sent unchanged and the headers are exactly the merged
defaults-plus-descriptor headers, the descriptor winning on key collision. -/
theorem claim_C5_body_serialization {β : Type} (defaultHeaders : Headers)
    (config : HttpRequestModel β) (stringify : β → String) :
    (∀ b, config.body = some (HttpBody.structured b) →
      hGet "Content-Type"
          (buildRequestConfig defaultHeaders config stringify).headers =
          some "application/json" ∧
        (buildRequestConfig defaultHeaders config stringify).body =
          some (stringify b)) ∧
    (∀ s, config.body = some (HttpBody.str s) →
      (buildRequestConfig defaultHeaders config stringify).body = some s ∧
        (buildRequestConfig defaultHeaders config stringify).headers =
          mergeHeaders defaultHeaders config.headers) ∧
    ((config.headers.map Prod.fst).Nodup → ∀ k,
      hGet k (mergeHeaders defaultHeaders config.headers) =
        (hGet k config.headers).orElse (fun _ => hGet k defaultHeaders)) := by
  refine ⟨?_, ?_, ?_⟩
  · intro b hb
    simp [buildRequestConfig, hb, hGet_hSet]
  · intro s hs
    simp [buildRequestConfig, hs]
  · intro hnd k
    exact hGet_mergeHeaders defaultHeaders config.headers hnd k

/-- Witness for C5 at concrete inputs: a structured body forces
`Content-Type: application/json` over the caller's `text/plain`; a string body
passes through unchanged; descriptor headers win on collision. -/
theorem claim_C5_witness :
    hGet "Content-Type"
        (buildRequestConfig [("Content-Type", "application/json")]
          ({ url := "/u", method := "POST",
             headers := [("Content-Type", "text/plain")],
             body := some (HttpBody.structured ()) } : HttpRequestModel Unit)
          (fun _ => "\x7b\x7d")).headers = some "application/json" ∧
    (buildRequestConfig [("X-A", "1")]
        ({ url := "/u", method := "POST", headers := [("X-A", "2")],
           body := some (HttpBody.str "raw") } : HttpRequestModel Unit)
        (fun _ => "")).body = some "raw" ∧
    hGet "X-A" (mergeHeaders [("X-A", "1")] [("X-A", "2")]) = some "2" := by
  refine ⟨((claim_C5_body_serialization _ _ _).1 () rfl).1,
    ((claim_C5_body_serialization [("X-A", "1")]
      ({ url := "/u", method := "POST", headers := [("X-A", "2")],
         body := some (HttpBody.str "raw") } : HttpRequestModel Unit)
      (fun _ => "")).2.1 "raw" rfl).1, ?_⟩
  have h := (claim_C5_body_serialization [("X-A", "1")]
    ({ url := "/u", method := "POST", headers := [("X-A", "2")],
       body := some (HttpBody.str "raw") } : HttpRequestModel Unit)
    (fun _ => "")).2.2 (by decide) "X-A"
  simp only [h]
  decide

/-- JS `String.prototype.startsWith`, character-exact. -/
def jsStartsWith (s p : String) : Bool :=
  p.data.isPrefixOf s.data

/-- JS `String.prototype.endsWith`, character-exact. -/
def jsEndsWith (s p : String) : Bool :=
  p.data.isSuffixOf s.data

/-- JS `s.replace(/\/$/, '')`: strip exactly one trailing slash when present. -/
def stripTrailingSlash (s : String) : String :=
  if jsEndsWith s "/" then s.dropRight 1 else s

/-- JS `s.replace(/^\//, '')`: strip exactly one leading slash when present. -/
def stripLeadingSlash (s : String) : String :=
  if jsStartsWith s "/" then s.drop 1 else s

/-- `isAbsoluteUrl` (`src/functions.ts`) and the scheme test at the top of the
unit's `resolveUrl`. -/
def isAbsoluteUrl (url : String) : Bool :=
  jsStartsWith url "http://" || jsStartsWith url "https://"

/-- `resolveUrl` (`src/http.unit.ts`): scheme-prefixed paths are returned
as-is; with an empty configured base URL (`!this.props.baseUrl`) the path is
returned unchanged; otherwise strip one trailing slash from the base and one
leading slash from the path and join with a single slash. -/
def resolveUrl (baseUrl path : String) : String :=
  if isAbsoluteUrl path then path
  else if baseUrl = "" then path
  else stripTrailingSlash baseUrl ++ "/" ++ stripLeadingSlash path

/-- `buildUrl` (`src/functions.ts`).  `URLSearchParams` serialization is the
`encode` oracle parameter; `params && Object.keys(params).length > 0` becomes
`params ≠ []` (an absent params object is the empty list). -/
def buildUrl (encode : List (String × String) → String) (baseUrl path : String)
    (params : List (String × String)) : String :=
  if isAbsoluteUrl path then
    if params ≠ [] then path ++ "?" ++ encode params else path
  else if baseUrl = "" then
    let fullUrl := if jsStartsWith path "/" then path else "/" ++ path
    if params ≠ [] then fullUrl ++ "?" ++ encode params else fullUrl
  else
    let fullUrl := stripTrailingSlash baseUrl ++ "/" ++ stripLeadingSlash path
    if params ≠ [] then fullUrl ++ "?" ++ encode params else fullUrl

theorem jsStartsWith_append (s t p : String) (h : jsStartsWith s p = true) :
    jsStartsWith (s ++ t) p = true := by
  unfold jsStartsWith at h ⊢
  rw [List.isPrefixOf_iff_prefix] at h ⊢
  rw [String.data_append]
  exact h.trans (List.prefix_append s.data t.data)

theorem jsStartsWith_slash_concat (t : String) :
    jsStartsWith ("/" ++ t) "/" = true := by
  unfold jsStartsWith
  rw [List.isPrefixOf_iff_prefix, String.data_append]
  exact ⟨t.data, rfl⟩

/-- Claim C6 counterexample: resolving the non-scheme path `"users"` against an
empty base URL, the executor's `resolveUrl` returns it unchanged, so its output
does not begin with a slash — the claim asserts a leading slash for both
resolvers. -/
theorem claim_C6_counterexample :
    resolveUrl "" "users" = "users" ∧ jsStartsWith "users" "/" = false := by
  exact ⟨rfl, by decide⟩

/-- Claim C6 amended: for a non-scheme path against an empty base URL, the
standalone `buildUrl` always returns a path beginning with a slash (adding one
when missing, keeping a single existing one), while the executor's `resolveUrl`
returns the path unchanged — it preserves an existing leading slash but does
not add one. -/
theorem claim_C6_empty_base (encode : List (String × String) → String)
    (path : String) (params : List (String × String))
    (h : isAbsoluteUrl path = false) :
    jsStartsWith (buildUrl encode "" path params) "/" = true ∧
    resolveUrl "" path = path := by
  constructor
  · unfold buildUrl
    rw [h]
    simp only [Bool.false_eq_true, if_false, if_pos rfl]
    by_cases hs : jsStartsWith path "/" = true
    · simp only [hs, if_true]
      by_cases hp : params = []
      · simp [hp, hs]
      · simp only [hp, ne_eq, not_false_eq_true, if_true]
        rw [String.append_assoc]
        exact jsStartsWith_append path ("?" ++ encode params) "/" hs
    · have hs' : jsStartsWith path "/" = false := by
        cases hv : jsStartsWith path "/"
        · rfl
        · exact absurd hv hs
      simp only [hs', Bool.false_eq_true, if_false]
      by_cases hp : params = []
      · simp only [hp, ne_eq, not_true_eq_false, if_false]
        exact jsStartsWith_slash_concat path
      · simp only [hp, ne_eq, not_false_eq_true, if_true]
        rw [String.append_assoc]
        exact jsStartsWith_slash_concat (path ++ ("?" ++ encode params))
  · unfold resolveUrl
    rw [h]
    simp

/-- Witness for C6 at concrete inputs: `buildUrl` prepends the missing slash to
`"users"`, and `resolveUrl` keeps an already-slashed path unchanged. -/
theorem claim_C6_witness :
    jsStartsWith (buildUrl (fun _ => "") "" "users" []) "/" = true ∧
    resolveUrl "" "/users" = "/users" := by
  exact ⟨(claim_C6_empty_base (fun _ => "") "users" [] (by decide)).1,
    (claim_C6_empty_base (fun _ => "") "/users" [] (by decide)).2⟩

/-- JS `toLowerCase` on a header name, character by character. -/
def lowerStr (s : String) : String :=
  ⟨s.data.map Char.toLower⟩

/-- Lowercase all header names: JS `Headers` normalizes names to lowercase when
the axios headers are wrapped by `new Headers(...)` inside `executeWithRetries`
and read back through `entries()` in `buildHttpResponse`. -/
def lowerHeaders (l : Headers) : Headers :=
  l.map (fun p => (lowerStr p.1, p.2))

/-- The raw response the axios transport call produced: status, status text,
headers, and response text (a non-string `axiosResponse.data` is already
serialized by the code before the `Response` is built, so text suffices). -/
structure RawResponse : Type where
  status : Nat
  statusText : String
  headers : Headers
  body : String

/-- The `HttpResponse` record (`src/http.unit.ts`); `timestamp` (milliseconds
since epoch) and `duration` (elapsed milliseconds) are integers. -/
structure HttpResponse : Type where
  url : String
  status : Nat
  statusText : String
  headers : Headers
  body : String
  ok : Bool
  timestamp : Int
  duration : Int

/-- `buildHttpResponse` (`src/http.unit.ts`): `duration = Date.now() -
startTime`, and status/statusText/headers/body/ok are copied from the
fetch-compatible `Response` (whose `ok` is "status in 200-299" and whose header
names come back lowercased). -/
def buildHttpResponse (url : String) (response : RawResponse)
    (startTime now : Int) : HttpResponse :=
  { url := url
    status := response.status
    statusText := response.statusText
    headers := lowerHeaders response.headers
    body := response.body
    ok := decide (200 ≤ response.status) && decide (response.status < 300)
    timestamp := now
    duration := now - startTime }

/-- Claim C7 counterexample: with a clock reading `now = 5` and a request start
instant `startedAt = 10`, the computed duration is `-5`, not clamped to `0` —
the code has no clamp. -/
theorem claim_C7_counterexample :
    (buildHttpResponse "https://a" ⟨200, "OK", [], ""⟩ 10 5).duration = -5 ∧
    (buildHttpResponse "https://a" ⟨200, "OK", [], ""⟩ 10 5).duration < 0 := by
  exact ⟨rfl, by decide⟩

/-- Claim C7 amended: the normalized response's duration equals `now` minus the
request start instant exactly, with no clamping — it is negative whenever clock
skew makes `now` smaller than `startedAt`. -/
theorem claim_C7_duration_exact (url : String) (response : RawResponse)
    (startTime now : Int) :
    (buildHttpResponse url response startTime now).duration = now - startTime :=
  rfl

/-- The response attached to an axios error (a failed call that nonetheless
reached a server); a falsy `statusText` is the empty string. -/
structure AxiosErrorResponse : Type where
  status : Nat
  statusText : String

/-- A thrown transport error, carrying exactly what the catch block of
`request` (`src/http.unit.ts`) inspects: the `isAxiosError` flag, the optional
`code`, the optional attached `response`, and the message. -/
structure TransportError : Type where
  isAxiosError : Bool
  code : Option String
  response : Option AxiosErrorResponse
  message : String

/-- One transport call either returns a raw response (axios is configured with
`validateStatus: () => true`, so every HTTP status is returned rather than
thrown) or throws an error. -/
inductive TransportOutcome : Type where
  | resp : RawResponse → TransportOutcome
  | err : TransportError → TransportOutcome

/-- The call threw an error that is not axios-flagged. -/
def TransportOutcome.isNonAxiosThrow : TransportOutcome → Bool
  | TransportOutcome.resp _ => false
  | TransportOutcome.err e => !e.isAxiosError

/-- The backoff delay `executeWithRetries` awaits before the next attempt:
`this.delay(1000 * (attempt + 1))` — the adjacent source comment calls this
"Exponential backoff", but the formula is linear in the attempt number. -/
def unitRetryDelay (attempt : Nat) : Nat :=
  1000 * (attempt + 1)

/-- The backoff delay of the pure-function `retryRequest` (`src/functions.ts`):
`baseDelay * 2 ** attempt`, true exponential backoff. -/
def delayForAttempt (baseDelay attempt : Nat) : Nat :=
  baseDelay * 2 ^ attempt

/-- Trace of one `executeWithRetries` run: the returned response or the error
finally thrown, how many times the transport was invoked, and the total
backoff delay awaited across retries. -/
structure ExecOutcome : Type where
  result : Except TransportError RawResponse
  calls : Nat
  totalDelay : Nat

/-- The `for (let attempt = 0; attempt <= retries; attempt++)` loop of
`executeWithRetries` (`src/http.unit.ts`), entered at iteration `attempt`; the
fuel argument counts the remaining iterations (`retries + 1 - attempt`), making
the recursion structural, and `lastError` is the `lastError` local.  A
success returns the response at once; an axios-flagged error is rethrown
immediately; any other error is retried after `unitRetryDelay attempt` while
`attempt < retries` holds and thrown once attempts run out. -/
def ewrLoop (transport : Nat → TransportOutcome) (retries : Nat) :
    Nat → Nat → Option TransportError → ExecOutcome
  | _, 0, lastError =>
    ⟨Except.error (lastError.getD
      ⟨false, none, none, "Request failed after all retries"⟩), 0, 0⟩
  | attempt, fuel + 1, _ =>
    match transport attempt with
    | TransportOutcome.resp r => ⟨Except.ok r, 1, 0⟩
    | TransportOutcome.err e =>
      if e.isAxiosError then ⟨Except.error e, 1, 0⟩
      else if attempt < retries then
        let rest := ewrLoop transport retries (attempt + 1) fuel (some e)
        ⟨rest.result, rest.calls + 1, rest.totalDelay + unitRetryDelay attempt⟩
      else ⟨Except.error e, 1, 0⟩

/-- `executeWithRetries`: run the loop from attempt 0 with `retries + 1`
available iterations and no last error yet. -/
def executeWithRetries (transport : Nat → TransportOutcome) (retries : Nat) :
    ExecOutcome :=
  ewrLoop transport retries 0 (retries + 1) none

/-- The catch block of `request` (`src/http.unit.ts`): an axios error with a
response gives `HTTP <status>: <statusText || message>`; an axios error with a
code gives `Network error <code>: <message>`; everything else falls back to
`HTTP request failed: <message>`. -/
def classifyError (e : TransportError) : String :=
  if e.isAxiosError then
    match e.response with
    | some r =>
      "HTTP " ++ toString r.status ++ ": " ++
        (if r.statusText = "" then e.message else r.statusText)
    | none =>
      match e.code with
      | some c => "Network error " ++ c ++ ": " ++ e.message
      | none => "HTTP request failed: " ++ e.message
  else "HTTP request failed: " ++ e.message

/-- The pattern occurs as a contiguous run somewhere in the list. -/
def subOccurs (pat : List Char) : List Char → Bool
  | [] => pat.isEmpty
  | c :: t => pat.isPrefixOf (c :: t) || subOccurs pat t

/-- JS `String.prototype.includes`: substring containment, character-exact. -/
def jsIncludes (s pat : String) : Bool :=
  subOccurs pat.data s.data

/-- `tryParseJson` (`src/http.unit.ts`): read the `content-type` header (absent
means `''`), return `undefined` unless it includes `application/json`, then
`JSON.parse` the body and swallow any parse error.  `JSON.parse` is the `parse`
oracle; a throwing parse is `none`. -/
def tryParseJson {α : Type u} (parse : String → Option α)
    (response : HttpResponse) : Option α :=
  let contentType := (hGet "content-type" response.headers).getD ""
  if jsIncludes contentType "application/json" then parse response.body
  else none

/-- `RequestResult` (`src/http.unit.ts`): the response, the optional parsed
body, and the generated request identifier. -/
structure RequestResult (α : Type u) : Type u where
  response : HttpResponse
  parsed : Option α
  requestId : String

/-- Trace of one `request` run: the returned `Result` plus the transport
invocation count and total backoff delay from `executeWithRetries`. -/
structure RequestTrace (α : Type u) : Type u where
  outcome : Result (RequestResult α)
  calls : Nat
  totalDelay : Nat

/-- The parsed body stored in a request outcome (`none` on failure). -/
def parsedOf {α : Type u} (r : Result (RequestResult α)) : Option α :=
  match r._value with
  | some v => v.parsed
  | none => none

/-- The fields of the unit's validated `HttpProps` that `request` reads. -/
structure HttpProps : Type where
  baseUrl : String
  defaultHeaders : Headers
  retries : Nat
  validateStatus : Nat → Bool

/-- The default status validator installed by `Http.create`:
`(status) => status >= 200 && status < 300`. -/
def defaultValidateStatus (status : Nat) : Bool :=
  decide (200 ≤ status) && decide (status < 300)

/-- `request` (`src/http.unit.ts`): resolve the URL, build the request config,
drive `executeWithRetries`, normalize the response, validate its status —
failing validation returns the failure `HTTP <status>: <statusText>`
immediately — then best-effort-parse JSON and return success; a thrown
transport error is classified by the catch block.  `startTime`/`now` are the
two clock reads and `requestId` the generated identifier. -/
def request {α β : Type} (props : HttpProps) (config : HttpRequestModel β)
    (stringify : β → String) (transport : Nat → TransportOutcome)
    (parse : String → Option α) (requestId : String) (startTime now : Int) :
    RequestTrace α :=
  let url := resolveUrl props.baseUrl config.url
  let _requestConfig := buildRequestConfig props.defaultHeaders config stringify
  let exec := executeWithRetries transport props.retries
  match exec.result with
  | Except.ok raw =>
    let httpResponse := buildHttpResponse url raw startTime now
    if props.validateStatus httpResponse.status then
      ⟨Result.success ⟨httpResponse, tryParseJson parse httpResponse, requestId⟩,
        exec.calls, exec.totalDelay⟩
    else
      ⟨Result.fail
        ("HTTP " ++ toString httpResponse.status ++ ": " ++ httpResponse.statusText)
        (some ("Request failed with status " ++ toString httpResponse.status)),
        exec.calls, exec.totalDelay⟩
  | Except.error e =>
    ⟨Result.fail (classifyError e) (some e.message), exec.calls, exec.totalDelay⟩

theorem ewrLoop_success (transport : Nat → TransportOutcome) (retries : Nat)
    (raw : RawResponse) :
    ∀ (k attempt fuel : Nat) (lastError : Option TransportError),
      k < fuel → attempt + k ≤ retries →
      (∀ i, i < k → (transport (attempt + i)).isNonAxiosThrow = true) →
      transport (attempt + k) = TransportOutcome.resp raw →
      (ewrLoop transport retries attempt fuel lastError).result = Except.ok raw ∧
      (ewrLoop transport retries attempt fuel lastError).calls = k + 1 := by
  intro k
  induction k with
  | zero =>
    intro attempt fuel lastError hfuel hle hthrows hresp
    cases fuel with
    | zero => omega
    | succ f =>
      rw [Nat.add_zero] at hresp
      simp [ewrLoop, hresp]
  | succ k ih =>
    intro attempt fuel lastError hfuel hle hthrows hresp
    cases fuel with
    | zero => omega
    | succ f =>
      have h0 := hthrows 0 (Nat.succ_pos k)
      rw [Nat.add_zero] at h0
      cases htr : transport attempt with
      | resp r =>
        rw [htr] at h0
        simp [TransportOutcome.isNonAxiosThrow] at h0
      | err e =>
        rw [htr] at h0
        have hax : e.isAxiosError = false := by
          simpa [TransportOutcome.isNonAxiosThrow] using h0
        have hlt : attempt < retries := by omega
        have ihres := ih (attempt + 1) f (some e) (by omega) (by omega)
          (fun i hi => by
            have hs := hthrows (i + 1) (by omega)
            have heq : attempt + 1 + i = attempt + (i + 1) := by omega
            rw [heq]
            exact hs)
          (by
            have heq : attempt + 1 + k = attempt + (k + 1) := by omega
            rw [heq]
            exact hresp)
        simp [ewrLoop, htr, hax, hlt, ihres.1, ihres.2]

/-- A transport that throws an axios-flagged network error — the shape every
connection failure from the axios transport has — on its first call, and would
return a 200 response on any later call. -/
def c1Transport : Nat → TransportOutcome
  | 0 => TransportOutcome.err
      ⟨true, some "ECONNREFUSED", none, "connect ECONNREFUSED 127.0.0.1:443"⟩
  | _ + 1 => TransportOutcome.resp ⟨200, "OK", [], "ok"⟩

/-- The C1 counterexample run: one retry configured (≥ N = 1). -/
def c1Trace : RequestTrace Unit :=
  request ⟨"", [], 1, defaultValidateStatus⟩
    ({ url := "https://api.example.com/x", method := "GET", headers := [],
       body := none } : HttpRequestModel Unit)
    (fun _ => "") c1Transport (fun _ => none) "req_1" 0 0

/-- Claim C1 counterexample: with one retry configured and a transport that
throws a network error (axios-flagged, as every transport network error is) on
its first call and would succeed on the second, `request` returns a network
failure after exactly one transport invocation — the `axios.isAxiosError`
rethrow inside `executeWithRetries` bypasses the retry branch, so the claimed
success after two invocations does not occur. -/
theorem claim_C1_counterexample :
    c1Trace.calls = 1 ∧ c1Trace.outcome.isFailure = true ∧
    c1Trace.outcome._error =
      some "Network error ECONNREFUSED: connect ECONNREFUSED 127.0.0.1:443" := by
  refine ⟨by decide, by decide, by decide⟩

/-- Claim C1 amended: every non-axios transport throw is retried up to the
configured limit — if the transport throws non-axios-flagged errors on its
first N calls and then returns a validator-passing response, `request`
configured with retries ≥ N returns a success outcome and the transport is
invoked exactly N + 1 times.  Axios-flagged throws (the shape actual network
errors take) are instead rethrown immediately without retrying. -/
theorem claim_C1_nonaxios_throws_retried {α β : Type} (props : HttpProps)
    (config : HttpRequestModel β) (stringify : β → String)
    (transport : Nat → TransportOutcome) (parse : String → Option α)
    (requestId : String) (startTime now : Int) (N : Nat) (raw : RawResponse)
    (hthrows : ∀ i, i < N → (transport i).isNonAxiosThrow = true)
    (hsucc : transport N = TransportOutcome.resp raw)
    (hretries : N ≤ props.retries)
    (hvalid : props.validateStatus raw.status = true) :
    (request props config stringify transport parse requestId startTime
      now).calls = N + 1 ∧
    (request props config stringify transport parse requestId startTime
      now).outcome.isSuccess = true := by
  have h := ewrLoop_success transport props.retries raw N 0 (props.retries + 1)
    none (by omega) (by omega)
    (fun i hi => by simpa using hthrows i hi)
    (by simpa using hsucc)
  simp only [request, executeWithRetries]
  rw [h.1, h.2]
  simp [buildHttpResponse, hvalid, Result.isSuccess, Result.success]

/-- A transport that throws a plain (non-axios) error on its first call and
returns a 200 response on any later call. -/
def c1wTransport : Nat → TransportOutcome
  | 0 => TransportOutcome.err ⟨false, none, none, "socket hang up"⟩
  | _ + 1 => TransportOutcome.resp ⟨200, "OK", [], "ok"⟩

/-- Witness for the amended C1 at N = 1: one non-axios throw, one retry
configured, success after exactly two transport invocations. -/
theorem claim_C1_witness :
    (request ⟨"", [], 1, defaultValidateStatus⟩
      ({ url := "https://api.example.com/x", method := "GET", headers := [],
         body := none } : HttpRequestModel Unit)
      (fun _ => "") c1wTransport (fun _ => (none : Option Unit)) "req_2" 0 0).calls = 2 ∧
    (request ⟨"", [], 1, defaultValidateStatus⟩
      ({ url := "https://api.example.com/x", method := "GET", headers := [],
         body := none } : HttpRequestModel Unit)
      (fun _ => "") c1wTransport (fun _ => (none : Option Unit)) "req_2" 0 0).outcome.isSuccess
      = true := by
  exact claim_C1_nonaxios_throws_retried ⟨"", [], 1, defaultValidateStatus⟩
    ({ url := "https://api.example.com/x", method := "GET", headers := [],
       body := none } : HttpRequestModel Unit)
    (fun _ => "") c1wTransport (fun _ => (none : Option Unit)) "req_2" 0 0 1
    ⟨200, "OK", [], "ok"⟩
    (fun i hi => by
      have hz : i = 0 := by omega
      subst hz
      decide)
    rfl (by decide) (by decide)

/-- Claim C2 (code-bug evidence): with a transport that always throws a
non-axios error and retries = 3, `executeWithRetries` makes 4 calls and awaits
1000 + 2000 + 3000 = 6000 ms — the delay is the linear `1000 * (attempt + 1)`
even though the source comment on that line says "Exponential backoff" — while
the exponential `baseDelay * 2 ^ attempt` of `retryRequest`'s backoff
(`delayForAttempt`) sums to 1000 + 2000 + 4000 = 7000 ms, so the claimed lower
bound fails from the third retry on. -/
theorem claim_C2_linear_backoff_evidence :
    (executeWithRetries
      (fun _ => TransportOutcome.err ⟨false, none, none, "boom"⟩) 3).totalDelay
      = 6000 ∧
    (executeWithRetries
      (fun _ => TransportOutcome.err ⟨false, none, none, "boom"⟩) 3).calls = 4 ∧
    unitRetryDelay 2 = 3000 ∧
    delayForAttempt 1000 0 + delayForAttempt 1000 1 + delayForAttempt 1000 2
      = 7000 ∧
    (executeWithRetries
      (fun _ => TransportOutcome.err ⟨false, none, none, "boom"⟩) 3).totalDelay
      < delayForAttempt 1000 0 + delayForAttempt 1000 1 +
        delayForAttempt 1000 2 := by
  refine ⟨by decide, by decide, by decide, by decide, by decide⟩

/-- Claim C3: when the transport's first call returns a response whose status
fails the configured validator, `request` returns the failure
`HTTP <status>: <statusText>` immediately, after exactly one transport
invocation, whatever retry count is configured. -/
theorem claim_C3_invalid_status_immediate {α β : Type} (props : HttpProps)
    (config : HttpRequestModel β) (stringify : β → String)
    (transport : Nat → TransportOutcome) (parse : String → Option α)
    (requestId : String) (startTime now : Int) (raw : RawResponse)
    (hresp : transport 0 = TransportOutcome.resp raw)
    (hinvalid : props.validateStatus raw.status = false) :
    (request props config stringify transport parse requestId startTime
      now).calls = 1 ∧
    (request props config stringify transport parse requestId startTime
      now).outcome.isFailure = true ∧
    (request props config stringify transport parse requestId startTime
      now).outcome._error =
      some ("HTTP " ++ toString raw.status ++ ": " ++ raw.statusText) := by
  have h := ewrLoop_success transport props.retries raw 0 0 (props.retries + 1)
    none (by omega) (by omega)
    (fun i hi => absurd hi (by omega))
    (by simpa using hresp)
  simp only [request, executeWithRetries]
  rw [h.1, h.2]
  simp [buildHttpResponse, hinvalid, Result.isFailure, Result.fail]

/-- A transport that always returns a 404 response. -/
def c3Transport : Nat → TransportOutcome :=
  fun _ =>
    TransportOutcome.resp
      ⟨404, "Not Found", [("Content-Type", "text/plain")], "missing"⟩

/-- Witness for C3: a 404 under the default validator with five retries
configured fails after one invocation with a message starting `HTTP 404`. -/
theorem claim_C3_witness :
    (request ⟨"https://api.example.com", [], 5, defaultValidateStatus⟩
      ({ url := "/users/999", method := "GET", headers := [], body := none } :
        HttpRequestModel Unit)
      (fun _ => "") c3Transport (fun _ => (none : Option Unit)) "req_3" 0 7).calls = 1 ∧
    (request ⟨"https://api.example.com", [], 5, defaultValidateStatus⟩
      ({ url := "/users/999", method := "GET", headers := [], body := none } :
        HttpRequestModel Unit)
      (fun _ => "") c3Transport (fun _ => (none : Option Unit)) "req_3" 0 7).outcome._error =
      some "HTTP 404: Not Found" ∧
    jsStartsWith "HTTP 404: Not Found" "HTTP 404" = true := by
  have h := claim_C3_invalid_status_immediate
    ⟨"https://api.example.com", [], 5, defaultValidateStatus⟩
    ({ url := "/users/999", method := "GET", headers := [], body := none } :
      HttpRequestModel Unit)
    (fun _ => "") c3Transport (fun _ => (none : Option Unit)) "req_3" 0 7
    ⟨404, "Not Found", [("Content-Type", "text/plain")], "missing"⟩
    rfl (by decide)
  refine ⟨h.1, ?_, by decide⟩
  rw [h.2.2]
  decide

/-- Claim C4 counterexample: the error an exceeded axios timeout throws carries
`isAxiosError`, a `code` (`ECONNABORTED`), and no response; the executor's
catch block classifies it as a network error — the message is not
`Request timed out after 5000ms`, which appears nowhere in the code (the
repository's own test expects `Network error ECONNABORTED`). -/
theorem claim_C4_counterexample :
    classifyError
        ⟨true, some "ECONNABORTED", none, "timeout of 5000ms exceeded"⟩ =
      "Network error ECONNABORTED: timeout of 5000ms exceeded" ∧
    ¬ (classifyError
        ⟨true, some "ECONNABORTED", none, "timeout of 5000ms exceeded"⟩ =
      "Request timed out after 5000ms") := by
  exact ⟨by decide, by decide⟩

/-- Claim C4 amended: a thrown value indicating a timeout abort reaches the
classifier as an axios error with a code and no attached response, and every
such error is classified as a network error with message
`Network error <code>: <message>`; the executor has no `timeout` kind and
never builds a `Request timed out after <timeoutMs>ms` message. -/
theorem claim_C4_timeout_classified_as_network (e : TransportError) (c : String)
    (ha : e.isAxiosError = true) (hr : e.response = none)
    (hc : e.code = some c) :
    classifyError e = "Network error " ++ c ++ ": " ++ e.message := by
  simp [classifyError, ha, hr, hc]

/-- Witness for the amended C4 at the concrete default-timeout abort error. -/
theorem claim_C4_witness :
    classifyError
        ⟨true, some "ECONNABORTED", none, "timeout of 30000ms exceeded"⟩ =
      "Network error ECONNABORTED: timeout of 30000ms exceeded" := by
  rw [claim_C4_timeout_classified_as_network
    ⟨true, some "ECONNABORTED", none, "timeout of 30000ms exceeded"⟩
    "ECONNABORTED" rfl rfl rfl]
  decide

/-- Claim C8: when the transport's first call returns a validator-passing
response, `request` returns a success outcome whose parsed body is exactly
`tryParseJson`'s: `JSON.parse` is attempted precisely when the response's
(lowercased) `content-type` header includes `application/json`; a parse
failure leaves the outcome a success with the parsed body absent, and a parse
success stores the parsed value — parse errors never propagate. -/
theorem claim_C8_best_effort_json {α β : Type} (props : HttpProps)
    (config : HttpRequestModel β) (stringify : β → String)
    (transport : Nat → TransportOutcome) (parse : String → Option α)
    (requestId : String) (startTime now : Int) (raw : RawResponse)
    (hresp : transport 0 = TransportOutcome.resp raw)
    (hvalid : props.validateStatus raw.status = true) :
    (request props config stringify transport parse requestId startTime
      now).outcome.isSuccess = true ∧
    parsedOf (request props config stringify transport parse requestId
      startTime now).outcome =
      (if jsIncludes ((hGet "content-type" (lowerHeaders raw.headers)).getD "")
          "application/json"
       then parse raw.body else none) := by
  have h := ewrLoop_success transport props.retries raw 0 0 (props.retries + 1)
    none (by omega) (by omega)
    (fun i hi => absurd hi (by omega))
    (by simpa using hresp)
  simp only [request, executeWithRetries]
  rw [h.1]
  simp [buildHttpResponse, hvalid, Result.isSuccess, Result.success, parsedOf,
    tryParseJson]

/-- The `JSON.parse` oracle for the C8 witness: parses the body
`'{"a":1}'` (to the stand-in value 1) and throws on everything else. -/
def c8Parse : String → Option Nat :=
  fun s => if s = "\x7b\"a\":1\x7d" then some 1 else none

/-- A 200 response with JSON content type and a well-formed JSON body. -/
def c8RawJson : RawResponse :=
  ⟨200, "OK", [("content-type", "application/json")], "\x7b\"a\":1\x7d"⟩

/-- A 200 response with JSON content type and a malformed body. -/
def c8RawBad : RawResponse :=
  ⟨200, "OK", [("content-type", "application/json")], "not json"⟩

/-- Witness for C8: body `'{"a":1}'` parses and the success outcome carries the
value; body `'not json'` fails to parse and the outcome is still a success
with the parsed body absent. -/
theorem claim_C8_witness :
    (request ⟨"", [], 0, defaultValidateStatus⟩
      ({ url := "/data", method := "GET", headers := [], body := none } :
        HttpRequestModel Unit)
      (fun _ => "") (fun _ => TransportOutcome.resp c8RawJson) c8Parse "req_8"
      0 0).outcome.isSuccess = true ∧
    parsedOf (request ⟨"", [], 0, defaultValidateStatus⟩
      ({ url := "/data", method := "GET", headers := [], body := none } :
        HttpRequestModel Unit)
      (fun _ => "") (fun _ => TransportOutcome.resp c8RawJson) c8Parse "req_8"
      0 0).outcome = some 1 ∧
    (request ⟨"", [], 0, defaultValidateStatus⟩
      ({ url := "/data", method := "GET", headers := [], body := none } :
        HttpRequestModel Unit)
      (fun _ => "") (fun _ => TransportOutcome.resp c8RawBad) c8Parse "req_8b"
      0 0).outcome.isSuccess = true ∧
    parsedOf (request ⟨"", [], 0, defaultValidateStatus⟩
      ({ url := "/data", method := "GET", headers := [], body := none } :
        HttpRequestModel Unit)
      (fun _ => "") (fun _ => TransportOutcome.resp c8RawBad) c8Parse "req_8b"
      0 0).outcome = none := by
  have h1 := claim_C8_best_effort_json ⟨"", [], 0, defaultValidateStatus⟩
    ({ url := "/data", method := "GET", headers := [], body := none } :
      HttpRequestModel Unit)
    (fun _ => "") (fun _ => TransportOutcome.resp c8RawJson) c8Parse "req_8"
    0 0 c8RawJson rfl (by decide)
  have h2 := claim_C8_best_effort_json ⟨"", [], 0, defaultValidateStatus⟩
    ({ url := "/data", method := "GET", headers := [], body := none } :
      HttpRequestModel Unit)
    (fun _ => "") (fun _ => TransportOutcome.resp c8RawBad) c8Parse "req_8b"
    0 0 c8RawBad rfl (by decide)
  refine ⟨h1.1, ?_, h2.1, ?_⟩
  · rw [h1.2]
    decide
  · rw [h2.2]
    decide

/-- The outcome of the `fetch` call inside the pure `request`
(`src/functions.ts`): either a fulfilled response or a rejection, whose `name`
property the catch block inspects. -/
inductive FetchOutcome : Type where
  | ok : RawResponse → FetchOutcome
  | err : String → String → FetchOutcome

/-- The pure `request` function (`src/functions.ts`): prepare headers and body
(a string body unchanged, a structured body stringified with the
`Content-Type` header forced), `fetch` under an abort controller armed by the
timeout, then normalize.  A fulfilled fetch yields the normalized response
(`ok` is fetch's status-in-200-299); a rejection named `AbortError` — the
abort fired, e.g. the timeout elapsed — yields the synthetic 408
`Request Timeout` response with empty headers and body; every other rejection
is rethrown (`Except.error` carries the rethrown error's name and message). -/
def functionsRequest {β : Type} (config : HttpRequestModel β)
    (stringify : β → String) (fetchResult : FetchOutcome)
    (startTime now : Int) : Except (String × String) HttpResponse :=
  let _fetchInit : Headers × Option String :=
    match config.body with
    | some (HttpBody.structured b) =>
        (hSet config.headers "Content-Type" "application/json",
          some (stringify b))
    | some (HttpBody.str s) => (config.headers, some s)
    | none => (config.headers, none)
  match fetchResult with
  | FetchOutcome.ok r =>
    Except.ok
      { url := config.url
        status := r.status
        statusText := r.statusText
        headers := lowerHeaders r.headers
        body := r.body
        ok := decide (200 ≤ r.status) && decide (r.status < 300)
        timestamp := now
        duration := now - startTime }
  | FetchOutcome.err name message =>
    if name = "AbortError" then
      Except.ok
        { url := config.url
          status := 408
          statusText := "Request Timeout"
          headers := []
          body := ""
          ok := false
          timestamp := now
          duration := now - startTime }
    else Except.error (name, message)

/-- Claim C10: when the in-flight fetch is aborted (the thrown error is named
`AbortError`, as a fired timeout produces), the pure `request` neither throws
nor returns an error value — it returns the synthetic `HttpResponse` with
status 408, statusText `Request Timeout`, `ok` false, empty headers and empty
body; every rejection with any other name is rethrown unchanged. -/
theorem claim_C10_abort_synthetic_408 {β : Type} (config : HttpRequestModel β)
    (stringify : β → String) (startTime now : Int) (name message : String) :
    (functionsRequest config stringify
        (FetchOutcome.err "AbortError" message) startTime now =
      Except.ok
        { url := config.url, status := 408, statusText := "Request Timeout",
          headers := [], body := "", ok := false, timestamp := now,
          duration := now - startTime }) ∧
    (name ≠ "AbortError" →
      functionsRequest config stringify (FetchOutcome.err name message)
          startTime now =
        Except.error (name, message)) := by
  constructor
  · simp [functionsRequest]
  · intro h
    simp [functionsRequest, h]

/-- Witness for C10 at concrete inputs: an aborted fetch becomes the synthetic
408 response; a differently-named rejection is rethrown. -/
theorem claim_C10_witness :
    functionsRequest
        ({ url := "https://slow.example.com/x", method := "GET",
           headers := [], body := none } : HttpRequestModel Unit)
        (fun _ => "") (FetchOutcome.err "AbortError" "This operation was aborted")
        100 350 =
      Except.ok
        ⟨"https://slow.example.com/x", 408, "Request Timeout", [], "", false,
          350, 250⟩ ∧
    functionsRequest
        ({ url := "https://slow.example.com/x", method := "GET",
           headers := [], body := none } : HttpRequestModel Unit)
        (fun _ => "") (FetchOutcome.err "TypeError" "fetch failed") 100 350 =
      Except.error ("TypeError", "fetch failed") := by
  constructor
  · have h := (claim_C10_abort_synthetic_408
      ({ url := "https://slow.example.com/x", method := "GET",
         headers := [], body := none } : HttpRequestModel Unit)
      (fun _ => "") 100 350 "TypeError" "This operation was aborted").1
    rw [h]
    rfl
  · exact (claim_C10_abort_synthetic_408
      ({ url := "https://slow.example.com/x", method := "GET",
         headers := [], body := none } : HttpRequestModel Unit)
      (fun _ => "") 100 350 "TypeError" "fetch failed").2 (by decide)

end SynetHttp
